import Mathlib

/-!
Shallow embedding of the monitoring-client pipeline
(aggregator, payload validator, vendor validator/parser, command executor,
API delivery client) together with proofs of the specification claims.

Python values are modelled by the inductive `PyVal`; Python floats are
modelled by `PyFloat`, with finite doubles abstracted as exact rationals
(the decimal value of the literal); `None` is `PyVal.vNone`; dictionaries
are insertion-ordered association lists with string keys, matching the
semantics of Python `dict` as used by the source (string keys only).
-/

namespace MonClient

/-- Python whitespace as recognized by `str.strip()` (ASCII part). -/
def isPySpace (c : Char) : Bool :=
  c = ' ' ∨ c = '\t' ∨ c = '\n' ∨ c = '\r' ∨ c = '\x0b' ∨ c = '\x0c'

/-- Model of Python `s.strip()`. -/
def pyStrip (s : String) : String :=
  ⟨((s.data.dropWhile isPySpace).reverse.dropWhile isPySpace).reverse⟩

/-- Model of Python `s.lower()` (ASCII case folding). -/
def pyLower (s : String) : String :=
  ⟨s.data.map Char.toLower⟩

/-- Model of Python `s.endswith(suffix)`. -/
def strEndsWith (s suffix : String) : Bool :=
  suffix.data.isSuffixOf s.data

/-- Model of Python `c in s` for a single character. -/
def strContainsChar (s : String) (c : Char) : Bool :=
  s.data.contains c

/-- Model of a Python `float`: finite values are abstracted as exact
rationals; the special values `inf`, `-inf` and `nan` are explicit. -/
inductive PyFloat where
  | finite (q : Rat)
  | inf
  | negInf
  | nan

/-- Model of a Python runtime value as used by the pipeline:
`None`, `bool`, `int`, `float`, `str`, `list`, `dict` (string keys,
insertion-ordered, as in CPython). -/
inductive PyVal where
  | vNone
  | vBool (b : Bool)
  | vInt (n : Int)
  | vFloat (x : PyFloat)
  | vStr (s : String)
  | vList (l : List PyVal)
  | vDict (d : List (String × PyVal))

/-- Embeds `d.get(k)`-style lookup on the association-list model of a dict:
first entry with the key (keys are unique in a real Python dict). -/
def pyGet (d : List (String × PyVal)) (k : String) : Option PyVal :=
  (d.find? (fun p => p.1 == k)).map (·.2)

/-- Python `k in d` membership test. -/
def pyContains (d : List (String × PyVal)) (k : String) : Bool :=
  d.any (fun p => p.1 == k)

/-- Embeds `metric.get(k)` on a `PyVal`: `none` models both a missing key and a
non-dict receiver (the callers always test `isinstance(..., dict)` first). -/
def PyVal.get : PyVal → String → Option PyVal
  | .vDict d, k => pyGet d k
  | _, _ => none

/-- Python `d[k] = v` on an insertion-ordered dict: update in place when
the key exists (keeping its slot), otherwise append at the end. -/
def dictUpdate {α : Type} (m : List (String × α)) (k : String) (v : α) :
    List (String × α) :=
  if m.any (fun p => p.1 == k) then
    m.map (fun p => if p.1 == k then (k, v) else p)
  else
    m ++ [(k, v)]

/-! ## MetricsAggregator (src/src/monitoring_client/pipeline/aggregator.py) -/

/-- Embeds `MetricsAggregator._normalize_metric_dict`: requires a dict with a
non-empty string `name`, a non-empty string `type`, and a present `value`
key; returns the metric itself, else `None`. -/
def normalize_metric_dict (metric : PyVal) : Option PyVal :=
  match metric with
  | .vDict d =>
    match pyGet d "name" with
    | some (.vStr s) =>
      if s = "" then none
      else
        match pyGet d "type" with
        | some (.vStr t) =>
          if t = "" then none
          else if pyContains d "value" then some metric else none
        | _ => none
    | _ => none
  | _ => none

/-- Embeds `m["name"]` on a normalized metric (guaranteed to be a dict with a
string name); yields `""` on the impossible cases. -/
def metricName (metric : PyVal) : String :=
  match metric with
  | .vDict d =>
    match pyGet d "name" with
    | some (.vStr s) => s
    | _ => ""
  | _ => ""

/-- One iteration of the aggregation loops: skip metrics that fail the
shape check, otherwise `merged[name] = m`. -/
def aggStep (m : List (String × PyVal)) (metric : PyVal) :
    List (String × PyVal) :=
  match normalize_metric_dict metric with
  | none => m
  | some mm => dictUpdate m (metricName mm) mm

/-- Embeds `MetricsAggregator.aggregate`: fold the builtin metrics then the vendor
metrics into an insertion-ordered dict keyed by name, and return its
values. -/
def aggregate (builtin_metrics vendor_metrics : List PyVal) : List PyVal :=
  let merged := builtin_metrics.foldl aggStep []
  let merged := vendor_metrics.foldl aggStep merged
  merged.map (·.2)

/-! ## PayloadValidator (src/src/pipeline/validator.py) -/

/-- A character of the metric-name class `[a-zA-Z0-9._\-\[\]/]`. -/
def metricNameCharOk (c : Char) : Bool :=
  c.isAlpha || c.isDigit || ['.', '_', '-', '[', ']', '/'].contains c

/-- Model of Python `re.match(r"^[C]+$", s)` for a character class `C`:
one or more class characters spanning the whole string, where `$` also
matches just before one trailing newline (CPython semantics). -/
def pyRegexMatchAll (charOk : Char → Bool) (s : String) : Bool :=
  let cs := s.data
  let t := if cs.getLast? = some '\n' then cs.dropLast else cs
  !t.isEmpty && t.all charOk

/-- Embeds `PayloadValidator.validate_metric_name`: must be a non-empty string
matching `^[a-zA-Z0-9._\-\[\]/]+$`. -/
def validate_metric_name (name : PyVal) : Bool :=
  match name with
  | .vStr s => if s = "" then false else pyRegexMatchAll metricNameCharOk s
  | _ => false

/-- Embeds `PayloadValidator.validate_metric_type`: the expected type must be a
string whose stripped, lowercased form is one of `numeric`, `boolean`,
`string`; `numeric` accepts `int`/`float` but explicitly rejects `bool`
(`bool` is a subclass of `int` in Python), `boolean` accepts `bool`,
`string` accepts `str`. -/
def validate_metric_type (value expected_type : PyVal) : Bool :=
  match expected_type with
  | .vStr es =>
    let etype := pyLower (pyStrip es)
    if etype = "numeric" then
      match value with
      | .vBool _ => false
      | .vInt _ => true
      | .vFloat _ => true
      | _ => false
    else if etype = "boolean" then
      match value with
      | .vBool _ => true
      | _ => false
    else if etype = "string" then
      match value with
      | .vStr _ => true
      | _ => false
    else false
  | _ => false

/-- One validation error of the payload validator (`path` is the
JSONPath-like locator, `message` the human-readable description). -/
structure ValidationError where
  path : String
  message : String

/-- The locator stem used for the metric at index `idx`. -/
def metricPath (idx : Nat) : String :=
  "$.metrics[" ++ toString idx ++ "]"

/-- The body of the per-metric loop of `PayloadValidator.validate_payload`:
the errors appended for the entry at index `idx`. A non-dict entry yields
one error; a missing (or `None`) `name` or an invalid name yields one
error; checking then continues with `type` (missing/non-string/unknown
stops this entry), then `value` (missing key stops; otherwise its
consistency with the declared type is checked). -/
def metricEntryErrors (idx : Nat) (metric : PyVal) : List ValidationError :=
  let pre := metricPath idx
  match metric with
  | .vDict d =>
    let nameErrs : List ValidationError :=
      match pyGet d "name" with
      | none => [⟨pre ++ ".name", "Champ name manquant pour une metrique."⟩]
      | some .vNone => [⟨pre ++ ".name", "Champ name manquant pour une metrique."⟩]
      | some nv =>
        if validate_metric_name nv then []
        else [⟨pre ++ ".name", "Nom de metrique invalide."⟩]
    let typeValueErrs : List ValidationError :=
      match pyGet d "type" with
      | none => [⟨pre ++ ".type", "Champ type manquant pour une metrique."⟩]
      | some .vNone => [⟨pre ++ ".type", "Champ type manquant pour une metrique."⟩]
      | some (.vStr ts) =>
        let norm := pyLower (pyStrip ts)
        if norm = "numeric" ∨ norm = "boolean" ∨ norm = "string" then
          if pyContains d "value" then
            let value := (pyGet d "value").getD .vNone
            if validate_metric_type value (.vStr ts) then []
            else [⟨pre ++ ".value", "Valeur incoherente avec le type declare."⟩]
          else [⟨pre ++ ".value", "Champ value manquant pour une metrique."⟩]
        else [⟨pre ++ ".type", "Type de metrique non supporte."⟩]
      | some _ => [⟨pre ++ ".type", "Champ type doit etre une chaine."⟩]
    nameErrs ++ typeValueErrs
  | _ => [⟨pre, "Metrique invalide, dict attendu."⟩]

/-- Embeds `PayloadValidator.validate_payload`: root must be a dict (else a
single root error is returned immediately); each of `metadata`,
`machine`, `metrics` must be present; `metrics` must be a list (else it
is reported and treated as empty); then the per-metric loop accumulates
the entry errors. Returns `(errors.isEmpty, errors)`. -/
def validate_payload (payload : PyVal) : Bool × List ValidationError :=
  match payload with
  | .vDict d =>
    let rootErrs : List ValidationError :=
      (if pyContains d "metadata" then []
       else [⟨"$", "Champ obligatoire manquant au niveau racine: metadata"⟩]) ++
      (if pyContains d "machine" then []
       else [⟨"$", "Champ obligatoire manquant au niveau racine: machine"⟩]) ++
      (if pyContains d "metrics" then []
       else [⟨"$", "Champ obligatoire manquant au niveau racine: metrics"⟩])
    let metricsPart : List ValidationError × List PyVal :=
      match pyGet d "metrics" with
      | some (.vList l) => ([], l)
      | _ => ([⟨"$.metrics", "Le champ metrics doit etre une liste."⟩], [])
    let errs :=
      (metricsPart.2.enum).foldl
        (fun acc p => acc ++ metricEntryErrors p.1 p.2)
        (rootErrs ++ metricsPart.1)
    (errs.isEmpty, errs)
  | _ => (false, [⟨"$", "Payload racine invalide, dict attendu."⟩])

/-! ## Python numeric literal parsing (used by `CommandExecutor._parse_output`)

`int(s)` and `float(s)` are modelled on stripped ASCII input: a digit
group is `digit ("_"? digit)*` (single underscores strictly between
digits, as in CPython); finite floats are abstracted as the exact
rational value of the accepted literal; `inf`/`infinity`/`nan` (any
case, optional sign) give the special values. -/

/-- Recognizer for a CPython digit group: one or more ASCII digits with
single underscores allowed only between digits. -/
def digitsU : List Char → Bool
  | [] => false
  | [c] => c.isDigit
  | c :: '_' :: rest => c.isDigit && digitsU rest
  | c :: rest => c.isDigit && digitsU rest

/-- Decimal value of a digit group (underscores skipped). -/
def digitsVal (cs : List Char) : Nat :=
  (cs.filter (fun c => c != '_')).foldl (fun n c => 10 * n + (c.toNat - 48)) 0

/-- Model of Python `int(s)` (base 10): strip, optional sign, digit
group; `none` models the `ValueError`. -/
def pyIntParse (s : String) : Option Int :=
  let cs := (pyStrip s).data
  match cs with
  | '+' :: rest => if digitsU rest then some (digitsVal rest : Int) else none
  | '-' :: rest => if digitsU rest then some (-(digitsVal rest : Int)) else none
  | _ => if digitsU cs then some (digitsVal cs : Int) else none

/-- Fractional value of a digit group read after the decimal point. -/
def fracVal (cs : List Char) : Rat :=
  (digitsVal cs : Rat) / (10 : Rat) ^ ((cs.filter (fun c => c != '_')).length)

/-- Mantissa of a float literal: `digits`, `digits "."`, `digits "." digits`
or `"." digits`, with its exact rational value. -/
def mantissaVal (cs : List Char) : Option Rat :=
  let ip := cs.takeWhile (fun c => c != '.')
  let rest := cs.drop ip.length
  match rest with
  | [] => if digitsU ip then some (digitsVal ip : Rat) else none
  | _ :: fp =>
    if ip = [] then
      if digitsU fp then some (fracVal fp) else none
    else if fp = [] then
      if digitsU ip then some (digitsVal ip : Rat) else none
    else
      if digitsU ip && digitsU fp then some ((digitsVal ip : Rat) + fracVal fp)
      else none

/-- Model of Python `float(s)`: strip and lowercase, optional sign, then
`inf`/`infinity`/`nan` or `mantissa [e [sign] digits]`; `none` models the
`ValueError`. Finite values are exact rationals (double rounding and
overflow to infinity are abstracted away). -/
def pyFloatParse (s : String) : Option PyFloat :=
  let cs := (pyLower (pyStrip s)).data
  let sgn : Rat := match cs with
    | '-' :: _ => -1
    | _ => 1
  let body : List Char := match cs with
    | '+' :: rest => rest
    | '-' :: rest => rest
    | _ => cs
  if body = ['i', 'n', 'f'] ∨ body = ['i', 'n', 'f', 'i', 'n', 'i', 't', 'y'] then
    some (if sgn = 1 then .inf else .negInf)
  else if body = ['n', 'a', 'n'] then
    some .nan
  else
    let mpart := body.takeWhile (fun c => c != 'e')
    let epart := body.drop mpart.length
    match epart with
    | [] => (mantissaVal mpart).map (fun q => .finite (sgn * q))
    | _ :: ex =>
      let esgn : Int := match ex with
        | '-' :: _ => -1
        | _ => 1
      let edigits : List Char := match ex with
        | '+' :: r => r
        | '-' :: r => r
        | _ => ex
      if digitsU edigits then
        (mantissaVal mpart).map (fun q =>
          .finite (sgn * q * (10 : Rat) ^ (esgn * (digitsVal edigits : Int))))
      else none

/-! ## CommandExecutor (src/src/vendors/executor.py) -/

/-- Embeds `SUPPORTED_LANGUAGES` of the executor module. -/
def SUPPORTED_LANGUAGES : List String :=
  ["python", "bash", "python2", "java", "node", "ruby", "perl",
   "powershell", "batch"]

/-- The candidate interpreter binaries probed per supported language, in
priority order (`CommandExecutor._init_languages_availability`). -/
def languageCandidates : List (String × List String) :=
  [("python", ["python3", "python"]),
   ("bash", ["bash", "sh"]),
   ("python2", ["python2"]),
   ("java", ["java"]),
   ("node", ["node", "nodejs"]),
   ("ruby", ["ruby"]),
   ("perl", ["perl"]),
   ("powershell", ["pwsh", "powershell"]),
   ("batch", ["cmd"])]

/-- First candidate binary resolved by `shutil.which`, modelled by the
environment function `which`. -/
def firstWhich (which : String → Option String) : List String → Option String
  | [] => none
  | b :: rest =>
    match which b with
    | some p => some p
    | none => firstWhich which rest

/-- Embeds `CommandExecutor._init_languages_availability`: the
`_language_binaries` dict, keyed by exactly the nine supported
languages, each mapped to its first resolved binary (or `None`). -/
def initLanguageBinaries (which : String → Option String) :
    List (String × Option String) :=
  languageCandidates.map (fun p => (p.1, firstWhich which p.2))

/-- Lookup of a key in the `_language_binaries` dict (`none` = key
absent, `some none` = key present but no binary found). -/
def lookupBinary (binaries : List (String × Option String)) (lang : String) :
    Option (Option String) :=
  (binaries.find? (fun p => p.1 == lang)).map (·.2)

/-- Embeds `CommandExecutor.check_language_available`: the lowercased/stripped
language must be a key of `_language_binaries` with a non-`None` value. -/
def check_language_available (binaries : List (String × Option String))
    (lang : String) : Bool :=
  let normalized := pyStrip (pyLower lang)
  match lookupBinary binaries normalized with
  | some (some _) => true
  | _ => false

/-- Embeds `CommandExecutor._build_process_args`: fixed per-language argument
vector; Java accepts only a `.jar` command; a falsy interpreter or an
unknown language raises `ValueError` (modelled as `Except.error`). -/
def build_process_args (binaries : List (String × Option String))
    (language command : String) : Except String (List String) :=
  let lang := pyStrip (pyLower language)
  match lookupBinary binaries lang with
  | some (some interpreter) =>
    if interpreter = "" then
      .error "Aucun interpreteur trouve pour le langage."
    else if lang = "python" then .ok [interpreter, "-c", command]
    else if lang = "python2" then .ok [interpreter, "-c", command]
    else if lang = "bash" then .ok [interpreter, "-c", command]
    else if lang = "node" then .ok [interpreter, "-e", command]
    else if lang = "ruby" then .ok [interpreter, "-e", command]
    else if lang = "perl" then .ok [interpreter, "-e", command]
    else if lang = "powershell" then .ok [interpreter, "-Command", command]
    else if lang = "batch" then .ok [interpreter, "/c", command]
    else if lang = "java" then
      let cmdStr := pyStrip command
      if strEndsWith cmdStr ".jar" then .ok [interpreter, "-jar", cmdStr]
      else .error "Commande Java ambigue."
    else .error "Langage non gere dans build_process_args."
  | _ => .error "Aucun interpreteur trouve pour le langage."

/-- Embeds `CommandExecutor._parse_output`: lowercase+strip the expected type;
`string` returns the text, `numeric` tries `int` when the text has no
`.` and no `e`/`E` else `float`, falling back to `float` when the first
attempt raises; `boolean` matches the truthy/falsy word sets; an unknown
type yields `None`. The `numeric` and `boolean` branches are split out
as `parse_numeric` / `parse_boolean`. -/
def parse_numeric (stdout : String) : Option PyVal :=
  let firstTry : Option PyVal :=
    if strContainsChar stdout '.' = false ∧
        strContainsChar (pyLower stdout) 'e' = false then
      (pyIntParse stdout).map (fun n => .vInt n)
    else
      (pyFloatParse stdout).map (fun x => .vFloat x)
  match firstTry with
  | some v => some v
  | none => (pyFloatParse stdout).map (fun x => .vFloat x)

def parse_boolean (stdout : String) : Option PyVal :=
  let val := pyLower (pyStrip stdout)
  if ["true", "1", "yes", "y", "on"].contains val then some (.vBool true)
  else if ["false", "0", "no", "n", "off"].contains val then some (.vBool false)
  else none

def parse_output (stdout : String) (expected_type : String) : Option PyVal :=
  let etype := pyStrip (pyLower expected_type)
  if etype = "string" then some (.vStr stdout)
  else if etype = "numeric" then parse_numeric stdout
  else if etype = "boolean" then parse_boolean stdout
  else none

/-- Outcome of one `subprocess.run` call, supplied by the environment:
`TimeoutExpired`, any other exception during spawn/communication, or a
completed process with its streams and return code. -/
inductive ProcOutcome where
  | timeoutExpired
  | raised (msg : String)
  | completed (stdout stderr : String) (returncode : Int)

/-- Embeds `CommandExecutor.execute`: unavailable language, rejected argument
build (`ValueError`), timeout, any exception from the run, or a non-zero
return code all yield `none` (the absent value); on success the stripped
stdout is returned raw (no expected type) or parsed per the expected
type. The subprocess itself is the environment function `run`, invoked
on the argument vector and timeout. -/
def execute (binaries : List (String × Option String))
    (run : List String → Rat → ProcOutcome)
    (command language : String) (timeoutVal : Rat)
    (expected_type : Option String) : Option PyVal :=
  let lang := pyStrip (pyLower language)
  if ¬ check_language_available binaries lang then none
  else
    match build_process_args binaries lang command with
    | .error _ => none
    | .ok procArgs =>
      match run procArgs timeoutVal with
      | .timeoutExpired => none
      | .raised _ => none
      | .completed so _se rc =>
        let stdout := pyStrip so
        if rc ≠ 0 then none
        else
          match expected_type with
          | none => some (.vStr stdout)
          | some t => parse_output stdout t

/-! ## Vendor definition validator
(src/src/monitoring_client/vendors/validator.py) -/

/-- Embeds `_ALLOWED_LANGUAGES` of the vendor-definition schema. -/
def allowedLanguages : List String :=
  ["python", "bash", "python2", "java", "node", "nodejs", "sh"]

/-- A character of the `_NAME_PATTERN` class `[A-Za-z0-9_.-]`. -/
def namePatternCharOk (c : Char) : Bool :=
  c.isAlpha || c.isDigit || ['_', '.', '-'].contains c

/-- Schema check of the `metadata` block: required string `vendor`
matching `_NAME_PATTERN`; optional `language` restricted to
`_ALLOWED_LANGUAGES`; optional string `version`; extra keys allowed. -/
def metadataOk (v : PyVal) : Bool :=
  match v with
  | .vDict d =>
    (match pyGet d "vendor" with
     | some (.vStr s) => pyRegexMatchAll namePatternCharOk s
     | _ => false) &&
    (match pyGet d "language" with
     | none => true
     | some (.vStr s) => allowedLanguages.contains s
     | some _ => false) &&
    (match pyGet d "version" with
     | none => true
     | some (.vStr _) => true
     | some _ => false)
  | _ => false

/-- The keys a metric entry may carry (closed schema: the declared
properties are the only admissible keys). -/
def metricAllowedKeys : List String :=
  ["name", "command", "type", "group_name", "description", "is_critical",
   "language"]

/-- Schema check of one `metrics[*]` entry: an object with the six
required keys, no extra keys, and per-property type / pattern / enum /
minLength constraints. -/
def metricItemOk (v : PyVal) : Bool :=
  match v with
  | .vDict d =>
    (["name", "command", "type", "group_name", "description",
      "is_critical"].all (fun k => pyContains d k)) &&
    (d.all (fun p => metricAllowedKeys.contains p.1)) &&
    (match pyGet d "name" with
     | none => true
     | some (.vStr s) => pyRegexMatchAll namePatternCharOk s
     | some _ => false) &&
    (match pyGet d "command" with
     | none => true
     | some (.vStr s) => s != ""
     | some _ => false) &&
    (match pyGet d "language" with
     | none => true
     | some (.vStr s) => allowedLanguages.contains s
     | some _ => false) &&
    (match pyGet d "type" with
     | none => true
     | some (.vStr s) => ["numeric", "boolean", "string"].contains s
     | some _ => false) &&
    (match pyGet d "group_name" with
     | none => true
     | some (.vStr s) => pyRegexMatchAll namePatternCharOk s
     | some _ => false) &&
    (match pyGet d "description" with
     | none => true
     | some (.vStr _) => true
     | some _ => false) &&
    (match pyGet d "is_critical" with
     | none => true
     | some (.vBool _) => true
     | some _ => false)
  | _ => false

/-- Model of `jsonschema.validate(instance, _VENDOR_SCHEMA)` as a
decision: root object with exactly the keys `metadata` and `metrics`
(both required), a conforming `metadata` block and a non-empty array of
conforming metric entries. -/
def vendorSchemaOk (raw : PyVal) : Bool :=
  match raw with
  | .vDict d =>
    pyContains d "metadata" && pyContains d "metrics" &&
    (d.all (fun p => p.1 == "metadata" || p.1 == "metrics")) &&
    (match pyGet d "metadata" with
     | none => true
     | some v => metadataOk v) &&
    (match pyGet d "metrics" with
     | none => true
     | some (.vList l) => decide (1 ≤ l.length) && l.all metricItemOk
     | some _ => false)
  | _ => false

/-- Embeds `_normalize_metadata_aliases`: when `metadata` is absent but the
legacy key `yamlmetadata` is present, pop the legacy key and append its
value under `metadata` (Python dict `pop` + assignment semantics). -/
def normalize_metadata_aliases (d : List (String × PyVal)) :
    List (String × PyVal) :=
  if pyContains d "metadata" then d
  else if pyContains d "yamlmetadata" then
    (d.filter (fun p => p.1 != "yamlmetadata")) ++
      [("metadata", (pyGet d "yamlmetadata").getD .vNone)]
  else d

/-- Embeds `_normalize_language`: maps the alias `nodejs` to `node`. -/
def normalize_language (lang : String) : String :=
  if lang = "nodejs" then "node" else lang

/-- A validated vendor document (`VendorDocument` dataclass). -/
structure VendorDocument where
  data : PyVal
  source : String

/-- Per-metric side of the post-validation loop: normalize a string
`language` in place. -/
def normalizeMetricLanguage (metric : PyVal) : PyVal :=
  match metric with
  | .vDict md =>
    match pyGet md "language" with
    | some (.vStr l) => .vDict (dictUpdate md "language"
        (.vStr (normalize_language l)))
    | _ => metric
  | _ => metric

/-- Per-metric side of the post-validation loop: re-check the
`_NAME_PATTERN` on string `name` and `group_name` fields, raising
`VendorSchemaError` (an `Except.error`) on the first violation. -/
def metricPatternRecheck (source : String) (metric : PyVal) :
    Except String Unit :=
  match metric with
  | .vDict md =>
    let checkKey : String → Except String Unit := fun k =>
      match pyGet md k with
      | some (.vStr s) =>
        if pyRegexMatchAll namePatternCharOk s then .ok ()
        else .error ("Champ " ++ k ++ " invalide dans " ++ source)
      | _ => .ok ()
    match checkKey "name" with
    | .error e => .error e
    | .ok _ => checkKey "group_name"
  | _ => .ok ()

/-- Embeds `validate_vendor_document`: normalize the metadata alias, run the
schema check, normalize the document-level language, reject the
reserved vendor name `builtin` (after strip+lower), then normalize each
metric language and re-check the name patterns; errors are
`VendorSchemaError` (modelled as `Except.error`). -/
def validate_vendor_document (raw : PyVal) (source : String) :
    Except String VendorDocument :=
  match raw with
  | .vDict d0 =>
    let d := normalize_metadata_aliases d0
    if ¬ vendorSchemaOk (.vDict d) then
      .error ("Fichier vendor invalide (" ++ source ++ "): schema.")
    else
      let metadata : List (String × PyVal) :=
        match pyGet d "metadata" with
        | some (.vDict md) => md
        | _ => []
      let md1 : List (String × PyVal) :=
        match pyGet metadata "language" with
        | some (.vStr l) =>
          dictUpdate metadata "language" (.vStr (normalize_language l))
        | _ => metadata
      let d1 : List (String × PyVal) :=
        match pyGet metadata "language" with
        | some (.vStr _) => dictUpdate d "metadata" (.vDict md1)
        | _ => d
      let vendorName :=
        pyLower (pyStrip (match pyGet md1 "vendor" with
          | some (.vStr s) => s
          | _ => ""))
      if vendorName = "builtin" then
        .error ("Fichier vendor invalide (" ++ source ++
          "): vendor ne doit pas etre builtin.")
      else
        let metricsList : List PyVal :=
          match pyGet d1 "metrics" with
          | some (.vList l) => l
          | _ => []
        let metrics1 := metricsList.map normalizeMetricLanguage
        match metrics1.findSome? (fun m =>
            match metricPatternRecheck source m with
            | .error e => some e
            | .ok _ => none) with
        | some e => .error e
        | none =>
          let dFinal :=
            match pyGet d1 "metrics" with
            | some (.vList _) => dictUpdate d1 "metrics" (.vList metrics1)
            | _ => d1
          .ok ⟨.vDict dFinal, source⟩
  | _ =>
    .error ("Document YAML racine invalide (dict attendu) dans " ++ source)

/-! ## VendorParser (src/src/vendors/parser.py) -/

/-- A directory entry as seen by `Path.iterdir`: its file name, whether
it is a regular file, and the result of reading it (`Except.error`
models an `OSError` from `read_text`). -/
structure FileEntry where
  name : String
  isFile : Bool
  content : Except String String

/-- The vendors directory as seen by the parser: existence, directory
bit, and its entries. -/
structure VendorsDir where
  dirExists : Bool
  isDir : Bool
  entries : List FileEntry

/-- Lexicographic (code-point) order on character lists, modelling the
string comparison used by `sorted`. -/
def charListLe : List Char → List Char → Bool
  | [], _ => true
  | _ :: _, [] => false
  | a :: as, b :: bs =>
    if a.toNat < b.toNat then true
    else if b.toNat < a.toNat then false
    else charListLe as bs

/-- Insertion step of the stable by-name sort of directory entries. -/
def insertByName (x : FileEntry) : List FileEntry → List FileEntry
  | [] => [x]
  | y :: ys =>
    if charListLe x.name.data y.name.data then x :: y :: ys
    else y :: insertByName x ys

/-- Stable sort of the directory entries by file name, modelling
`sorted(self.vendors_dir.iterdir())`. -/
def sortByName : List FileEntry → List FileEntry
  | [] => []
  | x :: xs => insertByName x (sortByName xs)

/-- Embeds `VendorParser._discover_vendor_files`: empty when the path is
missing or not a directory; otherwise the regular files with a
`.yaml`/`.yml` name not ending in `.disabled`/`.example`, in sorted
name order. -/
def discover_vendor_files (dir : VendorsDir) : List FileEntry :=
  if ¬ dir.dirExists then []
  else if ¬ dir.isDir then []
  else
    (sortByName dir.entries).filter
      (fun e => e.isFile &&
        (strEndsWith e.name ".yaml" || strEndsWith e.name ".yml") &&
        !(strEndsWith e.name ".disabled" || strEndsWith e.name ".example"))

/-- Embeds `VendorParser._load_yaml`: a failed read, a failed YAML parse (the
parser is the environment function `yamlParse`), or a non-mapping root
each raise `VendorSchemaError`. -/
def load_yaml (yamlParse : String → Except String PyVal) (f : FileEntry) :
    Except String PyVal :=
  match f.content with
  | .error e => .error ("Impossible de lire le fichier: " ++ e)
  | .ok content =>
    match yamlParse content with
    | .error e => .error ("YAML invalide: " ++ e)
    | .ok data =>
      match data with
      | .vDict _ => .ok data
      | _ => .error "Le contenu YAML doit etre un objet (mapping)."

/-- The `VendorMetric` dataclass. The dataclass carries whatever runtime
values the document held (Python does not enforce the annotations), so
the fields are `PyVal`; `is_critical` goes through `bool(...)`. -/
structure VendorMetric where
  vendor : PyVal
  group_name : PyVal
  name : PyVal
  command : PyVal
  language : PyVal
  type : PyVal
  description : PyVal
  is_critical : Bool
  source_file : String
  raw_metric : PyVal

/-- Python truthiness (`bool(x)`) on the value model. -/
def pyTruthy : PyVal → Bool
  | .vNone => false
  | .vBool b => b
  | .vInt n => n != 0
  | .vFloat x => match x with | .finite q => q != 0 | _ => true
  | .vStr s => s != ""
  | .vList l => !l.isEmpty
  | .vDict d => !d.isEmpty

/-- Python `a or b`. -/
def pyOr (a b : PyVal) : PyVal := if pyTruthy a then a else b

/-- Embeds `VendorParser._build_vendor_metrics`: expand each metric entry of a
validated document into a `VendorMetric`; an entry that is not a dict or
lacks one of the four indexed keys raises inside the per-metric `try`
and is skipped. The language resolution is
`metric.get("language") or global_lang or "python"` with
`global_lang = metadata.get("language", "python")`. -/
def build_vendor_metrics (document : VendorDocument) (path : String) :
    List VendorMetric :=
  let metadata : List (String × PyVal) :=
    match document.data with
    | .vDict d =>
      match pyGet d "metadata" with
      | some (.vDict md) => md
      | _ => []
    | _ => []
  let metricsRaw : List PyVal :=
    match document.data with
    | .vDict d =>
      match pyGet d "metrics" with
      | some (.vList l) => l
      | _ => []
    | _ => []
  let vendor_name : PyVal := (pyGet metadata "vendor").getD (.vStr "")
  let global_lang : PyVal := (pyGet metadata "language").getD (.vStr "python")
  metricsRaw.filterMap (fun metric =>
    match metric with
    | .vDict md =>
      match pyGet md "name", pyGet md "command", pyGet md "type",
          pyGet md "group_name" with
      | some nm, some cmd, some mty, some grp =>
        let lang := pyOr ((pyGet md "language").getD .vNone)
          (pyOr global_lang (.vStr "python"))
        let description := (pyGet md "description").getD (.vStr "")
        let is_critical := pyTruthy ((pyGet md "is_critical").getD
          (.vBool false))
        some ⟨vendor_name, grp, nm, cmd, lang, mty, description,
          is_critical, path, metric⟩
      | _, _, _, _ => none
    | _ => none)

/-- The per-file body of `VendorParser.parse_all`: load, validate and
expand one file; any `VendorSchemaError` (or other exception) makes the
file contribute nothing. -/
def parse_file (yamlParse : String → Except String PyVal) (f : FileEntry) :
    List VendorMetric :=
  match load_yaml yamlParse f with
  | .error _ => []
  | .ok doc =>
    match validate_vendor_document doc f.name with
    | .error _ => []
    | .ok validated => build_vendor_metrics validated f.name

/-- Embeds `VendorParser.parse_all`: process the discovered files in order,
extending the accumulated metric list with each file's yield. -/
def parse_all (yamlParse : String → Except String PyVal)
    (dir : VendorsDir) : List VendorMetric :=
  (discover_vendor_files dir).foldl
    (fun acc f => acc ++ parse_file yamlParse f) []

/-! ## APIClient (src/src/monitoring_client/core/api_client.py)

The transport is the environment function `out`, giving the outcome of
the HTTP POST of each (1-based) attempt. `send_payload` returns the
final result together with the list of backoff sleeps performed, in
order (modelling the `time.sleep` calls). -/

/-- Outcome of one HTTP POST: a response with its status and body text,
or a network-level exception (`requests.Timeout`, `ConnectionError`,
`RequestException`). -/
inductive HttpOutcome where
  | response (status : Nat) (text : String)
  | netError (msg : String)

/-- The `last_exc` recorded by a retryable failure: the synthetic
`APIClientError` built from a server-error response, or the caught
network exception. -/
inductive LastErr where
  | serverError (status : Nat) (text : String)
  | netExc (msg : String)

/-- Final outcome of `send_payload`: a 2xx response returned from
attempt `attempt`; an `APIClientError` raised on a 4xx response at
attempt `attempt` (no retry); or the final `APIClientError` raised after
`attempts` exhausted attempts, chained (`raise ... from last_exc`) to
the last recorded error. -/
inductive SendResult where
  | success (status : Nat) (attempt : Nat)
  | clientError (status : Nat) (attempt : Nat)
  | exhausted (attempts : Nat) (lastErr : Option LastErr)

/-- Embeds `APIClient._compute_backoff`: `base * 2 ** (attempt - 1)` seconds
with `base = 1.0` (exact in the rational model). -/
def compute_backoff (attempt : Nat) : Rat :=
  1 * (2 : Rat) ^ (attempt - 1)

/-- The retry loop of `send_payload`, with `fuel = maxRetries - attempt`
(so `0 < fuel` is the loop condition `attempt < max_retries`). One
iteration increments the attempt counter, classifies the outcome
(2xx: return; 4xx: raise; anything else or a network fault: record
`last_exc`) and sleeps `compute_backoff attempt` when attempts remain. -/
def sendLoop (out : Nat → HttpOutcome) (maxRetries : Nat) :
    Nat → Nat → Option LastErr → SendResult × List Rat
  | 0, _, lastErr => (.exhausted maxRetries lastErr, [])
  | fuel + 1, attempt, _lastErr =>
    let a := attempt + 1
    match out a with
    | .response s t =>
      if 200 ≤ s ∧ s < 300 then (.success s a, [])
      else if 400 ≤ s ∧ s < 500 then (.clientError s a, [])
      else
        let r := sendLoop out maxRetries fuel a (some (.serverError s t))
        if 0 < fuel then (r.1, compute_backoff a :: r.2) else r
    | .netError m =>
      let r := sendLoop out maxRetries fuel a (some (.netExc m))
      if 0 < fuel then (r.1, compute_backoff a :: r.2) else r

/-- Embeds `APIClient.send_payload`: run the retry loop from attempt 0 with no
recorded error and `max_retries` attempts available. -/
def send_payload (out : Nat → HttpOutcome) (maxRetries : Nat) :
    SendResult × List Rat :=
  sendLoop out maxRetries maxRetries 0 none

/-- An outcome the loop treats as retryable: any response that is
neither 2xx nor 4xx, or a network fault. -/
def retryable (o : HttpOutcome) : Bool :=
  match o with
  | .response s _ =>
    !(decide (200 ≤ s ∧ s < 300)) && !(decide (400 ≤ s ∧ s < 500))
  | .netError _ => true

/-- The `last_exc` value recorded for a retryable outcome. -/
def lastErrOf (o : HttpOutcome) : LastErr :=
  match o with
  | .response s t => .serverError s t
  | .netError m => .netExc m

/-! ## Claims -/

/-- Demo builtin metric used by concrete witnesses. -/
def demoBuiltinMetric : PyVal :=
  .vDict [("name", .vStr "cpu.usage"), ("value", .vInt 1),
    ("type", .vStr "numeric")]

/-- Demo vendor metric used by concrete witnesses. -/
def demoVendorMetric : PyVal :=
  .vDict [("name", .vStr "cpu.usage"), ("value", .vInt 2),
    ("type", .vStr "numeric")]

/-- Claim C2: For any builtin metric `B` and vendor metric `V` that both
pass the minimal shape check and share the same name `n`,
`aggregate [B] [V]` yields exactly one metric — in fact exactly `[V]` —
whose name is `n` and whose `value` and `type` are those of `V` (the
vendor entry overwrites the builtin entry). -/
theorem C2_aggregate_vendor_precedence (B V : PyVal) (n : String)
    (hB : normalize_metric_dict B = some B)
    (hV : normalize_metric_dict V = some V)
    (hBn : metricName B = n) (hVn : metricName V = n) :
    aggregate [B] [V] = [V] ∧
    (aggregate [B] [V]).length = 1 ∧
    ∀ m ∈ aggregate [B] [V],
      metricName m = n ∧ m.get "value" = V.get "value" ∧
      m.get "type" = V.get "type" := by
  have hagg : aggregate [B] [V] = [V] := by
    simp [aggregate, aggStep, hB, hV, hBn, hVn, dictUpdate]
  refine ⟨hagg, by rw [hagg]; rfl, ?_⟩
  intro m hm
  rw [hagg] at hm
  simp only [List.mem_singleton] at hm
  subst hm
  exact ⟨hVn, rfl, rfl⟩

/-- Witness for C2: The hypotheses and conclusion of
`C2_aggregate_vendor_precedence` at the concrete scenario-D metrics. -/
theorem C2_witness :
    normalize_metric_dict demoBuiltinMetric = some demoBuiltinMetric ∧
    normalize_metric_dict demoVendorMetric = some demoVendorMetric ∧
    metricName demoBuiltinMetric = "cpu.usage" ∧
    aggregate [demoBuiltinMetric] [demoVendorMetric] = [demoVendorMetric] :=
  ⟨rfl, rfl, rfl,
    (C2_aggregate_vendor_precedence demoBuiltinMetric demoVendorMetric
      "cpu.usage" rfl rfl rfl rfl).1⟩

/-- Claim C7: The type/value consistency check: a boolean value never
satisfies the `numeric` check; `numeric` accepts exactly `int` or
`float` values (booleans excluded); `boolean` accepts exactly
`true`/`false`; `string` accepts exactly text values. -/
theorem C7_validate_metric_type_exact (v : PyVal) :
    (∀ b, validate_metric_type (.vBool b) (.vStr "numeric") = false) ∧
    (validate_metric_type v (.vStr "numeric") = true ↔
      (∃ n, v = .vInt n) ∨ (∃ x, v = .vFloat x)) ∧
    (validate_metric_type v (.vStr "boolean") = true ↔ ∃ b, v = .vBool b) ∧
    (validate_metric_type v (.vStr "string") = true ↔ ∃ s, v = .vStr s) := by
  refine ⟨fun b => rfl, ?_, ?_, ?_⟩
  · cases v with
    | vInt n => exact iff_of_true rfl (Or.inl ⟨n, rfl⟩)
    | vFloat x => exact iff_of_true rfl (Or.inr ⟨x, rfl⟩)
    | vNone =>
      exact iff_of_false (fun h => Bool.noConfusion h)
        (by rintro (⟨_, h⟩ | ⟨_, h⟩) <;> cases h)
    | vBool b =>
      exact iff_of_false (fun h => Bool.noConfusion h)
        (by rintro (⟨_, h⟩ | ⟨_, h⟩) <;> cases h)
    | vStr s =>
      exact iff_of_false (fun h => Bool.noConfusion h)
        (by rintro (⟨_, h⟩ | ⟨_, h⟩) <;> cases h)
    | vList l =>
      exact iff_of_false (fun h => Bool.noConfusion h)
        (by rintro (⟨_, h⟩ | ⟨_, h⟩) <;> cases h)
    | vDict d =>
      exact iff_of_false (fun h => Bool.noConfusion h)
        (by rintro (⟨_, h⟩ | ⟨_, h⟩) <;> cases h)
  · cases v with
    | vBool b => exact iff_of_true rfl ⟨b, rfl⟩
    | vNone =>
      exact iff_of_false (fun h => Bool.noConfusion h)
        (by rintro ⟨_, h⟩; cases h)
    | vInt n =>
      exact iff_of_false (fun h => Bool.noConfusion h)
        (by rintro ⟨_, h⟩; cases h)
    | vFloat x =>
      exact iff_of_false (fun h => Bool.noConfusion h)
        (by rintro ⟨_, h⟩; cases h)
    | vStr s =>
      exact iff_of_false (fun h => Bool.noConfusion h)
        (by rintro ⟨_, h⟩; cases h)
    | vList l =>
      exact iff_of_false (fun h => Bool.noConfusion h)
        (by rintro ⟨_, h⟩; cases h)
    | vDict d =>
      exact iff_of_false (fun h => Bool.noConfusion h)
        (by rintro ⟨_, h⟩; cases h)
  · cases v with
    | vStr s => exact iff_of_true rfl ⟨s, rfl⟩
    | vNone =>
      exact iff_of_false (fun h => Bool.noConfusion h)
        (by rintro ⟨_, h⟩; cases h)
    | vInt n =>
      exact iff_of_false (fun h => Bool.noConfusion h)
        (by rintro ⟨_, h⟩; cases h)
    | vFloat x =>
      exact iff_of_false (fun h => Bool.noConfusion h)
        (by rintro ⟨_, h⟩; cases h)
    | vBool b =>
      exact iff_of_false (fun h => Bool.noConfusion h)
        (by rintro ⟨_, h⟩; cases h)
    | vList l =>
      exact iff_of_false (fun h => Bool.noConfusion h)
        (by rintro ⟨_, h⟩; cases h)
    | vDict d =>
      exact iff_of_false (fun h => Bool.noConfusion h)
        (by rintro ⟨_, h⟩; cases h)

/-- Witness for C7: the consistency check evaluated at concrete values
through the theorem. -/
theorem C7_witness :
    validate_metric_type (.vBool true) (.vStr "numeric") = false ∧
    (validate_metric_type (.vInt 3) (.vStr "numeric") = true ↔
      (∃ n, PyVal.vInt 3 = .vInt n) ∨ (∃ x, PyVal.vInt 3 = .vFloat x)) :=
  ⟨(C7_validate_metric_type_exact (.vBool true)).1 true,
    (C7_validate_metric_type_exact (.vInt 3)).2.1⟩

/-- Embeds `parse_boolean` written as its decision tree (definitional). -/
theorem parse_boolean_spec (s : String) :
    parse_boolean s =
      (if ["true", "1", "yes", "y", "on"].contains (pyLower (pyStrip s)) then
        some (.vBool true)
      else if ["false", "0", "no", "n", "off"].contains (pyLower (pyStrip s)) then
        some (.vBool false)
      else none) := rfl

/-- A word of the falsy set is never in the truthy set. -/
theorem falsy_not_truthy {v : String}
    (h : ["false", "0", "no", "n", "off"].contains v = true) :
    ["true", "1", "yes", "y", "on"].contains v = false := by
  have hv : v = "false" ∨ v = "0" ∨ v = "no" ∨ v = "n" ∨ v = "off" := by
    simpa using h
  rcases hv with rfl | rfl | rfl | rfl | rfl <;> rfl

/-- Claim C5: `_parse_output` conforms to the declared parsing contract:
`string` returns the input unchanged; `numeric` returns the integer
parse when the text has no decimal point and no exponent marker, the
float parse otherwise, and is absent when parsing fails (in particular
`42 ↦ 42` as an integer, `3.14 ↦ 3.14` as a float, `abc ↦` absent);
`boolean` matches the stripped, lowercased text against the truthy set
(`true,1,yes,y,on` ↦ true) and the falsy set (`false,0,no,n,off` ↦
false), and anything else is absent. -/
theorem C5_parse_output_contract :
    (∀ s, parse_output s "string" = some (.vStr s)) ∧
    (∀ s n, strContainsChar s '.' = false →
      strContainsChar (pyLower s) 'e' = false →
      pyIntParse s = some n →
      parse_output s "numeric" = some (.vInt n)) ∧
    (∀ s x, (strContainsChar s '.' = true ∨
        strContainsChar (pyLower s) 'e' = true) →
      pyFloatParse s = some x →
      parse_output s "numeric" = some (.vFloat x)) ∧
    (∀ s, pyIntParse s = none → pyFloatParse s = none →
      parse_output s "numeric" = none) ∧
    (∀ s, ["true", "1", "yes", "y", "on"].contains (pyLower (pyStrip s)) = true →
      parse_output s "boolean" = some (.vBool true)) ∧
    (∀ s, ["false", "0", "no", "n", "off"].contains (pyLower (pyStrip s)) = true →
      parse_output s "boolean" = some (.vBool false)) ∧
    (∀ s, ["true", "1", "yes", "y", "on"].contains (pyLower (pyStrip s)) = false →
      ["false", "0", "no", "n", "off"].contains (pyLower (pyStrip s)) = false →
      parse_output s "boolean" = none) ∧
    parse_output "42" "numeric" = some (.vInt 42) ∧
    parse_output "3.14" "numeric" = some (.vFloat (.finite (157 / 50))) ∧
    parse_output "abc" "numeric" = none := by
  refine ⟨fun s => rfl, ?_, ?_, ?_, ?_, ?_, ?_, rfl, ?_, rfl⟩
  · intro s n h1 h2 h3
    show parse_numeric s = some (.vInt n)
    simp [parse_numeric, h1, h2, h3]
  · intro s x h hf
    show parse_numeric s = some (.vFloat x)
    rcases h with h | h <;> simp [parse_numeric, h, hf]
  · intro s h1 h2
    show parse_numeric s = none
    unfold parse_numeric
    split <;> simp [h1, h2]
  · intro s h
    rw [show parse_output s "boolean" = parse_boolean s from rfl,
      parse_boolean_spec, h]
    rfl
  · intro s h
    rw [show parse_output s "boolean" = parse_boolean s from rfl,
      parse_boolean_spec, h, falsy_not_truthy h]
    rfl
  · intro s h1 h2
    rw [show parse_output s "boolean" = parse_boolean s from rfl,
      parse_boolean_spec, h1, h2]
    rfl
  · have h : parse_output "3.14" "numeric" =
        some (.vFloat (.finite ((1 : Rat) *
          ((digitsVal ['3'] : Rat) + fracVal ['1', '4'])))) := rfl
    rw [h]
    have h3 : digitsVal ['3'] = 3 := rfl
    have h14 : fracVal ['1', '4'] = (14 : Rat) / 10 ^ 2 := by
      have : digitsVal ['1', '4'] = 14 := rfl
      simp [fracVal, this]
    rw [h3, h14]
    norm_num

/-- Witness for C5: The parsing contract applied at concrete inputs. -/
theorem C5_witness :
    strContainsChar "10" '.' = false ∧ pyIntParse "10" = some 10 ∧
    parse_output "10" "numeric" = some (.vInt 10) ∧
    parse_output "True" "boolean" = some (.vBool true) ∧
    parse_output "off" "boolean" = some (.vBool false) ∧
    parse_output "maybe" "boolean" = none :=
  ⟨rfl, rfl,
    C5_parse_output_contract.2.1 "10" 10 rfl rfl rfl,
    C5_parse_output_contract.2.2.2.2.1 "True" rfl,
    C5_parse_output_contract.2.2.2.2.2.1 "off" rfl,
    C5_parse_output_contract.2.2.2.2.2.2.1 "maybe" rfl rfl⟩

/-- Claim C3: `CommandExecutor.execute` returns a value or absent
(`none`) and never raises to its caller (its Lean model is total, since
every exception path of the source is caught and converted): an
unavailable language yields absent, a rejected argument build
(`ValueError`) yields absent, a subprocess timeout yields absent, any
exception during process spawn/communication yields absent, and a
non-zero exit code yields absent. -/
theorem C3_execute_never_raises (binaries : List (String × Option String))
    (run : List String → Rat → ProcOutcome) (command language : String)
    (timeoutVal : Rat) (ety : Option String) :
    (check_language_available binaries (pyStrip (pyLower language)) = false →
      execute binaries run command language timeoutVal ety = none) ∧
    (∀ e, build_process_args binaries (pyStrip (pyLower language)) command =
        .error e →
      execute binaries run command language timeoutVal ety = none) ∧
    (∀ args, build_process_args binaries (pyStrip (pyLower language)) command =
        .ok args →
      run args timeoutVal = .timeoutExpired →
      execute binaries run command language timeoutVal ety = none) ∧
    (∀ args m, build_process_args binaries (pyStrip (pyLower language)) command =
        .ok args →
      run args timeoutVal = .raised m →
      execute binaries run command language timeoutVal ety = none) ∧
    (∀ args so se rc,
      build_process_args binaries (pyStrip (pyLower language)) command =
        .ok args →
      run args timeoutVal = .completed so se rc → rc ≠ 0 →
      execute binaries run command language timeoutVal ety = none) := by
  refine ⟨?_, ?_, ?_, ?_, ?_⟩
  · intro h
    simp [execute, h]
  · intro e hb
    by_cases hc : check_language_available binaries
        (pyStrip (pyLower language)) = true <;>
      simp [execute, hb, hc]
  · intro args hb hr
    by_cases hc : check_language_available binaries
        (pyStrip (pyLower language)) = true <;>
      simp [execute, hb, hr, hc]
  · intro args m hb hr
    by_cases hc : check_language_available binaries
        (pyStrip (pyLower language)) = true <;>
      simp [execute, hb, hr, hc]
  · intro args so se rc hb hr hrc
    by_cases hc : check_language_available binaries
        (pyStrip (pyLower language)) = true <;>
      simp [execute, hb, hr, hrc, hc]

/-- The `which` environment of the C3 witness: only `bash` resolves. -/
def demoWhich : String → Option String :=
  fun b => if b = "bash" then some "/bin/bash" else none

/-- Witness for C3: The executor theorem applied at concrete inputs: an
unavailable language (`ruby`) and a timed-out `bash` command both yield
absent. -/
theorem C3_witness :
    check_language_available (initLanguageBinaries demoWhich) "ruby" = false ∧
    execute (initLanguageBinaries demoWhich) (fun _ _ => .timeoutExpired)
      "sleep 99" "ruby" 5 (some "numeric") = none ∧
    build_process_args (initLanguageBinaries demoWhich) "bash" "sleep 99" =
      .ok ["/bin/bash", "-c", "sleep 99"] ∧
    execute (initLanguageBinaries demoWhich) (fun _ _ => .timeoutExpired)
      "sleep 99" "bash" 5 (some "numeric") = none :=
  ⟨rfl,
    (C3_execute_never_raises (initLanguageBinaries demoWhich)
      (fun _ _ => .timeoutExpired) "sleep 99" "ruby" 5 (some "numeric")).1 rfl,
    rfl,
    (C3_execute_never_raises (initLanguageBinaries demoWhich)
      (fun _ _ => .timeoutExpired) "sleep 99" "bash" 5
      (some "numeric")).2.2.1 ["/bin/bash", "-c", "sleep 99"] rfl rfl⟩

/-- Demo vendor document declaring language `sh`, used by C10. -/
def shDemoDoc : PyVal :=
  .vDict [
    ("metadata", .vDict [("vendor", .vStr "acme"), ("language", .vStr "sh")]),
    ("metrics", .vList [.vDict [
      ("name", .vStr "m1"), ("command", .vStr "echo 1"),
      ("type", .vStr "numeric"), ("group_name", .vStr "grp"),
      ("description", .vStr "demo"), ("is_critical", .vBool false)]])]

/-- Claim C10: The vendor-definition schema accepts `sh` as a declared
language (it is in `_ALLOWED_LANGUAGES`, and a well-formed document
declaring it validates), but the executor's interpreter map is keyed
only by the nine languages `python, bash, python2, java, node, ruby,
perl, powershell, batch`, so for every `which` environment, command,
timeout and expected type, `check_language_available "sh"` is false and
`execute` with language `sh` is absent: such a metric passes validation
yet can never produce a value. -/
theorem C10_sh_accepted_but_never_runs :
    allowedLanguages.contains "sh" = true ∧
    (∃ doc, validate_vendor_document shDemoDoc "acme.yaml" = .ok doc) ∧
    (∀ which, (initLanguageBinaries which).map Prod.fst =
      SUPPORTED_LANGUAGES) ∧
    (∀ which, check_language_available (initLanguageBinaries which) "sh" =
      false) ∧
    (∀ which run command timeoutVal ety,
      execute (initLanguageBinaries which) run command "sh" timeoutVal ety =
        none) :=
  ⟨rfl, ⟨_, rfl⟩, fun _ => rfl, fun _ => rfl, fun _ _ _ _ _ => rfl⟩

/-- A successful `get` implies `in` membership. -/
theorem pyGet_some_contains {d : List (String × PyVal)} {k : String}
    {v : PyVal} (h : pyGet d k = some v) : pyContains d k = true := by
  unfold pyGet at h
  unfold pyContains
  cases hf : List.find? (fun p => p.1 == k) d with
  | none => rw [hf] at h; simp at h
  | some p =>
    have hp := List.find?_some hf
    exact List.any_eq_true.mpr ⟨p, List.mem_of_find?_eq_some hf, hp⟩

/-- In-place overwrite of key `k` does not change lookups of `k' ≠ k`. -/
theorem find?_map_overwrite (d : List (String × PyVal)) (k k' : String)
    (v : PyVal) (h : k' ≠ k) :
    List.find? (fun q => q.1 == k')
      (d.map (fun p => if p.1 == k then (k, v) else p)) =
    List.find? (fun q => q.1 == k') d := by
  rw [List.find?_map]
  have hfun : ((fun q : String × PyVal => q.1 == k') ∘
      (fun p => if p.1 == k then (k, v) else p)) =
      fun q : String × PyVal => q.1 == k' := by
    funext p
    by_cases hp : p.1 = k
    · have hbeq : (p.1 == k) = true := beq_iff_eq.mpr hp
      simp only [Function.comp_apply, hbeq, if_true]
      rw [hp]
    · have hbeq : (p.1 == k) = false := beq_eq_false_iff_ne.mpr hp
      simp [Function.comp_apply, hbeq, hp]
  rw [hfun]
  cases hf : List.find? (fun q : String × PyVal => q.1 == k') d with
  | none => rfl
  | some q =>
    have hq := List.find?_some hf
    have hqk : q.1 = k' := beq_iff_eq.mp hq
    have hne : (q.1 == k) = false := by
      apply beq_eq_false_iff_ne.mpr
      rw [hqk]
      exact h
    simp [Option.map, hne]

/-- Appending a new key `k` does not change lookups of `k' ≠ k`. -/
theorem find?_append_single (d : List (String × PyVal)) (k k' : String)
    (v : PyVal) (h : k' ≠ k) :
    List.find? (fun q => q.1 == k') (d ++ [(k, v)]) =
    List.find? (fun q => q.1 == k') d := by
  rw [List.find?_append]
  have hk : ((k, v).1 == k') = false :=
    beq_eq_false_iff_ne.mpr (Ne.symm h)
  simp [List.find?, hk]

/-- Embeds `d[k] = v` does not change lookups of another key. -/
theorem pyGet_dictUpdate_ne (d : List (String × PyVal)) (k k' : String)
    (v : PyVal) (h : k' ≠ k) :
    pyGet (dictUpdate d k v) k' = pyGet d k' := by
  unfold dictUpdate pyGet
  split
  · rw [find?_map_overwrite d k k' v h]
  · rw [find?_append_single d k k' v h]

/-- Specialization used for the metadata language normalization. -/
theorem pyGet_update_language_vendor (md : List (String × PyVal))
    (x : PyVal) :
    pyGet (dictUpdate md "language" x) "vendor" = pyGet md "vendor" :=
  pyGet_dictUpdate_ne md "language" "vendor" x (by decide)

/-- Claim C6: `validate_vendor_document` always raises a schema error
(`Except.error`) for any document whose `metadata.vendor` is
`"builtin"`, however well-formed the rest of the document is: either the
schema check itself fails, or the reserved-vendor check fires; no such
document ever yields a `VendorDocument`. -/
theorem C6_builtin_vendor_always_rejected (d0 md : List (String × PyVal))
    (source : String)
    (hmd : pyGet d0 "metadata" = some (.vDict md))
    (hv : pyGet md "vendor" = some (.vStr "builtin")) :
    ∃ e, validate_vendor_document (.vDict d0) source = .error e := by
  have hcontains : pyContains d0 "metadata" = true := pyGet_some_contains hmd
  have hnorm : normalize_metadata_aliases d0 = d0 := by
    simp [normalize_metadata_aliases, hcontains]
  have hb : pyLower (pyStrip "builtin") = "builtin" := rfl
  by_cases hs : vendorSchemaOk (.vDict d0) = true
  · refine ⟨"Fichier vendor invalide (" ++ source ++
      "): vendor ne doit pas etre builtin.", ?_⟩
    rcases hlang : pyGet md "language" with _ | lv
    · simp [validate_vendor_document, hnorm, hs, hmd, hlang, hv, hb]
    · cases lv with
      | vStr l =>
        simp [validate_vendor_document, hnorm, hs, hmd, hlang,
          pyGet_update_language_vendor, hv, hb]
      | vNone =>
        simp [validate_vendor_document, hnorm, hs, hmd, hlang, hv, hb]
      | vBool b =>
        simp [validate_vendor_document, hnorm, hs, hmd, hlang, hv, hb]
      | vInt n =>
        simp [validate_vendor_document, hnorm, hs, hmd, hlang, hv, hb]
      | vFloat x =>
        simp [validate_vendor_document, hnorm, hs, hmd, hlang, hv, hb]
      | vList l =>
        simp [validate_vendor_document, hnorm, hs, hmd, hlang, hv, hb]
      | vDict dd =>
        simp [validate_vendor_document, hnorm, hs, hmd, hlang, hv, hb]
  · refine ⟨"Fichier vendor invalide (" ++ source ++ "): schema.", ?_⟩
    simp [validate_vendor_document, hnorm, hs]

/-- Demo document whose `metadata.vendor` is the reserved `builtin`,
but which is otherwise fully well-formed. -/
def builtinDemoDoc : List (String × PyVal) :=
  [("metadata", .vDict [("vendor", .vStr "builtin")]),
   ("metrics", .vList [.vDict [
     ("name", .vStr "m1"), ("command", .vStr "echo 1"),
     ("type", .vStr "numeric"), ("group_name", .vStr "grp"),
     ("description", .vStr "demo"), ("is_critical", .vBool false)]])]

/-- Witness for C6: The rejection theorem applied to a concrete
well-formed document with `vendor: builtin` (whose schema check passes,
showing the reserved-name branch itself fires). -/
theorem C6_witness :
    pyGet builtinDemoDoc "metadata" =
      some (.vDict [("vendor", .vStr "builtin")]) ∧
    vendorSchemaOk (.vDict builtinDemoDoc) = true ∧
    ∃ e, validate_vendor_document (.vDict builtinDemoDoc) "acme.yaml" =
      .error e :=
  ⟨rfl, rfl,
    C6_builtin_vendor_always_rejected builtinDemoDoc
      [("vendor", .vStr "builtin")] "acme.yaml" rfl rfl⟩

/-- The error accumulator of the per-metric loop unfolds to the
concatenation of the independent per-entry error lists. -/
theorem foldl_entry_errors (l : List (Nat × PyVal))
    (init : List ValidationError) :
    l.foldl (fun acc p => acc ++ metricEntryErrors p.1 p.2) init =
    init ++ l.flatMap (fun p => metricEntryErrors p.1 p.2) := by
  induction l generalizing init with
  | nil => simp
  | cons a t ih => simp [ih]

/-- A flat map whose pieces all have length one has the length of the
underlying list. -/
theorem flatMap_length_one {α β : Type} (l : List α) (f : α → List β)
    (h : ∀ a ∈ l, (f a).length = 1) : (l.flatMap f).length = l.length := by
  induction l with
  | nil => rfl
  | cons a t ih =>
    rw [List.flatMap_cons, List.length_append,
      h a (List.mem_cons_self a t),
      ih (fun x hx => h x (List.mem_cons_of_mem a hx)), List.length_cons]
    omega

/-- Every error produced for the metric at index `idx` carries the
JSONPath-like locator stem `$.metrics[idx]`. -/
theorem metricEntryErrors_path (idx : Nat) (m : PyVal) :
    ∀ e ∈ metricEntryErrors idx m, ∃ suf, e.path = metricPath idx ++ suf := by
  intro e he
  cases m with
  | vDict d =>
    simp only [metricEntryErrors] at he
    rcases List.mem_append.mp he with h | h
    · split at h
      · refine ⟨".name", ?_⟩
        simp only [List.mem_singleton] at h
        rw [h]
      · refine ⟨".name", ?_⟩
        simp only [List.mem_singleton] at h
        rw [h]
      · split at h
        · simp at h
        · refine ⟨".name", ?_⟩
          simp only [List.mem_singleton] at h
          rw [h]
    · split at h
      · refine ⟨".type", ?_⟩
        simp only [List.mem_singleton] at h
        rw [h]
      · refine ⟨".type", ?_⟩
        simp only [List.mem_singleton] at h
        rw [h]
      · split at h
        · split at h
          · split at h
            · simp at h
            · refine ⟨".value", ?_⟩
              simp only [List.mem_singleton] at h
              rw [h]
          · refine ⟨".value", ?_⟩
            simp only [List.mem_singleton] at h
            rw [h]
        · refine ⟨".type", ?_⟩
          simp only [List.mem_singleton] at h
          rw [h]
      · refine ⟨".type", ?_⟩
        simp only [List.mem_singleton] at h
        rw [h]
  | vNone => exact ⟨"", by simp_all [metricEntryErrors]⟩
  | vBool b => exact ⟨"", by simp_all [metricEntryErrors]⟩
  | vInt n => exact ⟨"", by simp_all [metricEntryErrors]⟩
  | vFloat x => exact ⟨"", by simp_all [metricEntryErrors]⟩
  | vStr s => exact ⟨"", by simp_all [metricEntryErrors]⟩
  | vList l => exact ⟨"", by simp_all [metricEntryErrors]⟩

/-- Claim C4: `validate_payload` is exhaustive across metric entries: for
a payload whose root is a mapping containing `metadata`, `machine` and a
list `metrics`, the returned errors are exactly the concatenation of the
independent per-entry error lists (no entry suppresses the checking of
another); the boolean result is the emptiness of that list; every entry
error carries a `$.metrics[i]` locator; and when each of the `N` entries
contains exactly one violation, exactly `N` errors are returned. -/
theorem C4_validate_payload_exhaustive (d : List (String × PyVal))
    (metrics : List PyVal)
    (hmd : pyContains d "metadata" = true)
    (hmach : pyContains d "machine" = true)
    (hmet : pyGet d "metrics" = some (.vList metrics)) :
    (validate_payload (.vDict d)).2 =
      (metrics.enum).flatMap (fun q => metricEntryErrors q.1 q.2) ∧
    ((validate_payload (.vDict d)).1 = true ↔
      (validate_payload (.vDict d)).2 = []) ∧
    (∀ i m e, e ∈ metricEntryErrors i m →
      ∃ suf, e.path = metricPath i ++ suf) ∧
    ((∀ q ∈ metrics.enum, (metricEntryErrors q.1 q.2).length = 1) →
      (validate_payload (.vDict d)).2.length = metrics.length) := by
  have hc3 : pyContains d "metrics" = true := pyGet_some_contains hmet
  have herr : (validate_payload (.vDict d)).2 =
      (metrics.enum).flatMap (fun q => metricEntryErrors q.1 q.2) := by
    simp [validate_payload, hmd, hmach, hc3, hmet, foldl_entry_errors]
  refine ⟨herr, ?_, metricEntryErrors_path, ?_⟩
  · have hfst : (validate_payload (.vDict d)).1 =
        (validate_payload (.vDict d)).2.isEmpty := rfl
    rw [hfst]
    exact List.isEmpty_iff
  · intro hlen
    rw [herr, flatMap_length_one _ _ hlen, List.enum_length]

/-- Demo payload with two independently broken metric entries. -/
def demoBadMetrics : List PyVal :=
  [.vDict [("name", .vStr "ok1"), ("type", .vStr "numeric"),
     ("value", .vStr "bad")],
   .vDict [("name", .vStr "bad name !"), ("type", .vStr "numeric"),
     ("value", .vInt 1)]]

/-- Root dict of the demo payload. -/
def demoBadPayload : List (String × PyVal) :=
  [("metadata", .vDict []), ("machine", .vDict []),
   ("metrics", .vList demoBadMetrics)]

/-- Witness for C4: The exhaustiveness theorem applied to the concrete
two-error payload: exactly two errors come back. -/
theorem C4_witness :
    pyContains demoBadPayload "metadata" = true ∧
    pyGet demoBadPayload "metrics" = some (.vList demoBadMetrics) ∧
    (∀ q ∈ demoBadMetrics.enum, (metricEntryErrors q.1 q.2).length = 1) ∧
    (validate_payload (.vDict demoBadPayload)).2.length = 2 := by
  refine ⟨rfl, rfl, ?_, ?_⟩
  · intro q hq
    fin_cases hq <;> rfl
  · exact (C4_validate_payload_exhaustive demoBadPayload demoBadMetrics
      rfl rfl rfl).2.2.2 (by intro q hq; fin_cases hq <;> rfl)

/-- The metric accumulator of `parse_all` unfolds to the concatenation
of the per-file yields. -/
theorem foldl_parse_files (yamlParse : String → Except String PyVal)
    (l : List FileEntry) (init : List VendorMetric) :
    l.foldl (fun acc f => acc ++ parse_file yamlParse f) init =
    init ++ l.flatMap (parse_file yamlParse) := by
  induction l generalizing init with
  | nil => simp
  | cons a t ih => simp [ih]

/-- Claim C8: Loader fault containment: `parse_all` never raises (it is
total); a missing or non-directory path yields the empty sequence; the
output is exactly the concatenation of the per-file yields of the
discovered files; a file that fails to read/parse (`load_yaml` error) or
fails schema validation contributes zero definitions, and removing such
a file's contribution leaves the other files' definitions intact — one
bad file never aborts or alters the processing of the remaining files. -/
theorem C8_parse_all_containment (yamlParse : String → Except String PyVal)
    (dir : VendorsDir) :
    (dir.dirExists = false → parse_all yamlParse dir = []) ∧
    (dir.isDir = false → parse_all yamlParse dir = []) ∧
    (parse_all yamlParse dir =
      (discover_vendor_files dir).flatMap (parse_file yamlParse)) ∧
    (∀ l1 f l2, discover_vendor_files dir = l1 ++ f :: l2 →
      parse_file yamlParse f = [] →
      parse_all yamlParse dir =
        l1.flatMap (parse_file yamlParse) ++
        l2.flatMap (parse_file yamlParse)) ∧
    (∀ f e, load_yaml yamlParse f = .error e →
      parse_file yamlParse f = []) ∧
    (∀ f doc e, load_yaml yamlParse f = .ok doc →
      validate_vendor_document doc f.name = .error e →
      parse_file yamlParse f = []) := by
  have hc : parse_all yamlParse dir =
      (discover_vendor_files dir).flatMap (parse_file yamlParse) := by
    unfold parse_all
    rw [foldl_parse_files]
    rfl
  refine ⟨?_, ?_, hc, ?_, ?_, ?_⟩
  · intro h
    simp [parse_all, discover_vendor_files, h]
  · intro h
    by_cases he : dir.dirExists = true <;>
      simp [parse_all, discover_vendor_files, h, he]
  · intro l1 f l2 hdisc hskip
    rw [hc, hdisc]
    simp [hskip]
  · intro f e he
    simp [parse_file, he]
  · intro f doc e hl hv
    simp [parse_file, hl, hv]

/-- Environment YAML parser of the C8 witness: one recognizable good
document, everything else a parse error. -/
def demoYamlParse : String → Except String PyVal := fun content =>
  if content = "good" then
    .ok (.vDict [
      ("metadata", .vDict [("vendor", .vStr "acme"),
        ("language", .vStr "bash")]),
      ("metrics", .vList [.vDict [
        ("name", .vStr "m1"), ("command", .vStr "echo 1"),
        ("type", .vStr "numeric"), ("group_name", .vStr "grp"),
        ("description", .vStr "demo"), ("is_critical", .vBool false)]])])
  else .error "bad yaml"

/-- A readable, well-formed vendor file. -/
def demoGoodFile : FileEntry := ⟨"a.yaml", true, .ok "good"⟩

/-- A readable file whose content fails to parse. -/
def demoBadFile : FileEntry := ⟨"b.yaml", true, .ok "oops"⟩

/-- The witness directory: one good YAML, one broken YAML, one non-YAML
file that discovery skips. -/
def demoVendorsDir : VendorsDir :=
  ⟨true, true, [demoBadFile, demoGoodFile, ⟨"c.txt", true, .ok "good"⟩]⟩

/-- Witness for C8: The containment theorem applied to the concrete
directory: the broken file contributes nothing while the good file's
single metric is still produced. -/
theorem C8_witness :
    discover_vendor_files demoVendorsDir = [demoGoodFile, demoBadFile] ∧
    parse_file demoYamlParse demoBadFile = [] ∧
    parse_all demoYamlParse demoVendorsDir =
      [demoGoodFile].flatMap (parse_file demoYamlParse) ++
      ([] : List FileEntry).flatMap (parse_file demoYamlParse) ∧
    (parse_all demoYamlParse demoVendorsDir).length = 1 := by
  refine ⟨rfl, rfl, ?_, rfl⟩
  exact (C8_parse_all_containment demoYamlParse demoVendorsDir).2.2.2.1
    [demoGoodFile] demoBadFile [] rfl rfl

/-- One loop iteration on a retryable outcome: the attempt counter
advances, the outcome is recorded as `last_exc`, and (attempts
remaining) the backoff sleep is performed. -/
theorem sendLoop_retry_step (out : Nat → HttpOutcome) (maxR fuel attempt : Nat)
    (le : Option LastErr) (hr : retryable (out (attempt + 1)) = true)
    (hf : 0 < fuel) :
    sendLoop out maxR (fuel + 1) attempt le =
      ((sendLoop out maxR fuel (attempt + 1)
          (some (lastErrOf (out (attempt + 1))))).1,
        compute_backoff (attempt + 1) ::
          (sendLoop out maxR fuel (attempt + 1)
            (some (lastErrOf (out (attempt + 1))))).2) := by
  cases ho : out (attempt + 1) with
  | response s t =>
    rw [ho] at hr
    simp only [retryable, Bool.and_eq_true, Bool.not_eq_true',
      decide_eq_false_iff_not] at hr
    simp [sendLoop, ho, hr.1, hr.2, hf, lastErrOf]
  | netError m =>
    simp [sendLoop, ho, hf, lastErrOf]

/-- Reaching a 2xx response at attempt `k` after retryable attempts:
the loop returns that response from attempt `k`, having slept the
backoffs of attempts `attempt+1 .. k-1`. -/
theorem sendLoop_success (out : Nat → HttpOutcome) (maxR : Nat) :
    ∀ (fuel attempt : Nat) (le : Option LastErr) (k s : Nat) (t : String),
    attempt < k → k ≤ attempt + fuel →
    (∀ j, attempt < j → j < k → retryable (out j) = true) →
    out k = .response s t → 200 ≤ s → s < 300 →
    sendLoop out maxR fuel attempt le =
      (.success s k,
        (List.range' (attempt + 1) (k - 1 - attempt)).map compute_backoff) := by
  intro fuel
  induction fuel with
  | zero =>
    intro attempt le k s t h1 h2 hr hout h200 h300
    omega
  | succ n ih =>
    intro attempt le k s t h1 h2 hr hout h200 h300
    by_cases hk : k = attempt + 1
    · subst hk
      have hz : attempt + 1 - 1 - attempt = 0 := by omega
      rw [hz]
      simp [sendLoop, hout, h200, h300]
    · have hak : attempt + 1 < k := by omega
      have hr1 : retryable (out (attempt + 1)) = true :=
        hr (attempt + 1) (by omega) hak
      have hn : 0 < n := by omega
      rw [sendLoop_retry_step out maxR n attempt le hr1 hn]
      rw [ih (attempt + 1) (some (lastErrOf (out (attempt + 1)))) k s t hak
        (by omega) (fun j hj1 hj2 => hr j (by omega) hj2) hout h200 h300]
      have hlen : k - 1 - attempt = (k - 1 - (attempt + 1)) + 1 := by omega
      rw [hlen, List.range'_succ]
      simp

/-- Reaching a 4xx response at attempt `k` after retryable attempts:
the loop raises immediately at attempt `k` with no further retry and no
further backoff sleep. -/
theorem sendLoop_clientError (out : Nat → HttpOutcome) (maxR : Nat) :
    ∀ (fuel attempt : Nat) (le : Option LastErr) (k s : Nat) (t : String),
    attempt < k → k ≤ attempt + fuel →
    (∀ j, attempt < j → j < k → retryable (out j) = true) →
    out k = .response s t → 400 ≤ s → s < 500 →
    sendLoop out maxR fuel attempt le =
      (.clientError s k,
        (List.range' (attempt + 1) (k - 1 - attempt)).map compute_backoff) := by
  intro fuel
  induction fuel with
  | zero =>
    intro attempt le k s t h1 h2 hr hout h400 h500
    omega
  | succ n ih =>
    intro attempt le k s t h1 h2 hr hout h400 h500
    by_cases hk : k = attempt + 1
    · subst hk
      have hz : attempt + 1 - 1 - attempt = 0 := by omega
      rw [hz]
      have hno2 : ¬(200 ≤ s ∧ s < 300) := by omega
      simp [sendLoop, hout, hno2, h400, h500]
    · have hak : attempt + 1 < k := by omega
      have hr1 : retryable (out (attempt + 1)) = true :=
        hr (attempt + 1) (by omega) hak
      have hn : 0 < n := by omega
      rw [sendLoop_retry_step out maxR n attempt le hr1 hn]
      rw [ih (attempt + 1) (some (lastErrOf (out (attempt + 1)))) k s t hak
        (by omega) (fun j hj1 hj2 => hr j (by omega) hj2) hout h400 h500]
      have hlen : k - 1 - attempt = (k - 1 - (attempt + 1)) + 1 := by omega
      rw [hlen, List.range'_succ]
      simp

/-- All remaining attempts retryable: the loop exhausts its attempts,
recording the last outcome as `last_exc` and raising the final error
that wraps it and carries the total attempt count. -/
theorem sendLoop_exhaust (out : Nat → HttpOutcome) (maxR : Nat) :
    ∀ (fuel attempt : Nat) (le : Option LastErr), 0 < fuel →
    (∀ j, attempt < j → j ≤ attempt + fuel → retryable (out j) = true) →
    sendLoop out maxR fuel attempt le =
      (.exhausted maxR (some (lastErrOf (out (attempt + fuel)))),
        (List.range' (attempt + 1) (fuel - 1)).map compute_backoff) := by
  intro fuel
  induction fuel with
  | zero =>
    intro attempt le hf hr
    omega
  | succ n ih =>
    intro attempt le hf hr
    have hr1 : retryable (out (attempt + 1)) = true :=
      hr (attempt + 1) (by omega) (by omega)
    by_cases hn : 0 < n
    · rw [sendLoop_retry_step out maxR n attempt le hr1 hn]
      rw [ih (attempt + 1) (some (lastErrOf (out (attempt + 1)))) hn
        (fun j hj1 hj2 => hr j (by omega) (by omega))]
      have ha : attempt + 1 + n = attempt + (n + 1) := by omega
      have hlen : n + 1 - 1 = (n - 1) + 1 := by omega
      rw [ha, hlen, List.range'_succ]
      simp
    · have hn0 : n = 0 := by omega
      subst hn0
      cases ho : out (attempt + 1) with
      | response s t =>
        rw [ho] at hr1
        simp only [retryable, Bool.and_eq_true, Bool.not_eq_true',
          decide_eq_false_iff_not] at hr1
        simp [sendLoop, ho, hr1.1, hr1.2, lastErrOf]
      | netError m =>
        simp [sendLoop, ho, lastErrOf]

/-- Claim C1: `send_payload` classifies outcomes as the claim states: a
2xx response at attempt `k` (after earlier retryable attempts) is
returned immediately with no further attempts; a 4xx response raises
`APIClientError` immediately with no retry and no further backoff
sleep; retryable outcomes (any non-2xx/non-4xx response — in particular
5xx — or a network fault) are recorded as the last error and retried
with a `compute_backoff attempt` sleep while attempts remain (so the
sleeps performed before reaching attempt `k` are exactly
`backoff(1), ..., backoff(k-1)`); after `maxRetries` attempts without a
2xx the final error wraps the last recorded error and carries the total
attempt count; and `backoff(attempt) = 1.0 * 2^(attempt-1)` seconds. -/
theorem C1_send_payload_classification (out : Nat → HttpOutcome)
    (maxRetries : Nat) :
    (∀ k s t, 1 ≤ k → k ≤ maxRetries →
      (∀ j, 1 ≤ j → j < k → retryable (out j) = true) →
      out k = .response s t → 200 ≤ s → s < 300 →
      send_payload out maxRetries =
        (.success s k, (List.range' 1 (k - 1)).map compute_backoff)) ∧
    (∀ k s t, 1 ≤ k → k ≤ maxRetries →
      (∀ j, 1 ≤ j → j < k → retryable (out j) = true) →
      out k = .response s t → 400 ≤ s → s < 500 →
      send_payload out maxRetries =
        (.clientError s k, (List.range' 1 (k - 1)).map compute_backoff)) ∧
    (∀ s t, (500 ≤ s → retryable (.response s t) = true) ∧
      retryable (.netError t) = true) ∧
    (1 ≤ maxRetries →
      (∀ j, 1 ≤ j → j ≤ maxRetries → retryable (out j) = true) →
      send_payload out maxRetries =
        (.exhausted maxRetries (some (lastErrOf (out maxRetries))),
          (List.range' 1 (maxRetries - 1)).map compute_backoff)) ∧
    (∀ attempt, compute_backoff attempt = (2 : Rat) ^ (attempt - 1)) := by
  refine ⟨?_, ?_, ?_, ?_, fun attempt => one_mul _⟩
  · intro k s t h1 h2 hr hout h200 h300
    exact sendLoop_success out maxRetries maxRetries 0 none k s t h1
      (by omega) (fun j hj1 hj2 => hr j hj1 hj2) hout h200 h300
  · intro k s t h1 h2 hr hout h400 h500
    exact sendLoop_clientError out maxRetries maxRetries 0 none k s t h1
      (by omega) (fun j hj1 hj2 => hr j hj1 hj2) hout h400 h500
  · intro s t
    constructor
    · intro h5
      simp [retryable]
      omega
    · rfl
  · intro hm hr
    have := sendLoop_exhaust out maxRetries maxRetries 0 none (by omega)
      (fun j hj1 hj2 => hr j hj1 (by omega))
    simpa using this

/-- Transport of the C1 witness: a network fault, then a 503, then 200. -/
def demoTransport : Nat → HttpOutcome := fun j =>
  if j = 1 then .netError "connection refused"
  else if j = 2 then .response 503 "unavailable"
  else .response 200 "ok"

/-- Always-404 transport of the C1 witness. -/
def demoTransport404 : Nat → HttpOutcome := fun _ => .response 404 "not found"

/-- Always-503 transport of the C1 witness. -/
def demoTransport503 : Nat → HttpOutcome := fun _ => .response 503 "down"

/-- Witness for C1: The classification theorem at concrete transports:
success on attempt 3 after sleeping backoff(1) and backoff(2) (1s and
2s); immediate terminal failure on a 404 with no sleep; exhaustion
after two 503 attempts wrapping the last server error. -/
theorem C1_witness :
    demoTransport 3 = .response 200 "ok" ∧
    send_payload demoTransport 3 =
      (.success 200 3, [compute_backoff 1, compute_backoff 2]) ∧
    compute_backoff 1 = 1 ∧ compute_backoff 2 = 2 ∧
    send_payload demoTransport404 3 = (.clientError 404 1, []) ∧
    send_payload demoTransport503 2 =
      (.exhausted 2 (some (.serverError 503 "down")), [compute_backoff 1]) := by
  refine ⟨rfl, ?_, by norm_num [compute_backoff], by norm_num [compute_backoff],
    ?_, ?_⟩
  · exact (C1_send_payload_classification demoTransport 3).1 3 200 "ok"
      (by omega) (by omega)
      (by intro j h1 h2; interval_cases j <;> rfl) rfl (by omega) (by omega)
  · exact (C1_send_payload_classification demoTransport404 3).2.1 1 404
      "not found" (by omega) (by omega) (by intro j h1 h2; omega) rfl
      (by omega) (by omega)
  · exact (C1_send_payload_classification demoTransport503 2).2.2.2.1
      (by omega) (by intro j h1 h2; rfl)

/-! ## C9: aggregation output order -/

/-- The (name, metric) pairs actually inserted by the aggregation loops:
the metrics passing the shape check, keyed by their name, in input
order. -/
def validEntries (metrics : List PyVal) : List (String × PyVal) :=
  metrics.filterMap (fun m =>
    (normalize_metric_dict m).map (fun mm => (metricName mm, mm)))

/-- The last value written under key `k` (default `dflt` when `k` is
never written in `l`). -/
def lastValue (k : String) (dflt : PyVal) (l : List (String × PyVal)) :
    PyVal :=
  (l.filter (fun p => p.1 == k)).foldl (fun _ p => p.2) dflt

/-- Modelled from the spec: "the mapping's values, in final insertion
order (builtin ordering preserved; overwritten entries retain their
original slot position, the data structure updating in place rather than
moving to the end)" — i.e. one entry per key, keys in first-insertion
order, each carrying the last value written under that key. -/
def specMergeEntries : List (String × PyVal) → List (String × PyVal)
  | [] => []
  | (k, v) :: rest =>
    (k, lastValue k v rest) ::
      specMergeEntries (rest.filter (fun p => p.1 != k))
termination_by l => l.length
decreasing_by
  simp only [List.length_cons]
  exact Nat.lt_succ_of_le (List.length_filter_le _ _)

/-- Keys in order of first occurrence. -/
def firstOccurrences : List String → List String
  | [] => []
  | k :: rest => k :: firstOccurrences (rest.filter (fun x => x != k))
termination_by l => l.length
decreasing_by
  simp only [List.length_cons]
  exact Nat.lt_succ_of_le (List.length_filter_le _ _)

/-- Embeds `lastValue` ignores a leading write of a different key. -/
theorem lastValue_cons_ne (k x : String) (v dflt : PyVal)
    (rest : List (String × PyVal)) (h : (k == x) = false) :
    lastValue x dflt ((k, v) :: rest) = lastValue x dflt rest := by
  simp [lastValue, List.filter_cons, h]

/-- A leading write of the key becomes the new default of `lastValue`. -/
theorem lastValue_cons_self (k : String) (v dflt : PyVal)
    (rest : List (String × PyVal)) :
    lastValue k dflt ((k, v) :: rest) = lastValue k v rest := by
  simp [lastValue, List.filter_cons]

/-- The aggregation loop is the fold of dict insertion over the valid
(name, metric) entries. -/
theorem foldl_aggStep_eq (ms : List PyVal) :
    ∀ m0, ms.foldl aggStep m0 =
      (validEntries ms).foldl (fun acc p => dictUpdate acc p.1 p.2) m0 := by
  induction ms with
  | nil => intro m0; rfl
  | cons a t ih =>
    intro m0
    cases hn : normalize_metric_dict a with
    | none => simp [aggStep, hn, validEntries, List.filterMap_cons, ih]
    | some mm => simp [aggStep, hn, validEntries, List.filterMap_cons, ih]

/-- Embeds `==` on strings is symmetric. -/
theorem str_beq_comm (a b : String) : (a == b) = (b == a) := by
  by_cases h : a = b
  · subst h; rfl
  · rw [beq_eq_false_iff_ne.mpr h, beq_eq_false_iff_ne.mpr (Ne.symm h)]

/-- An in-place overwrite leaves the key test of every key unchanged. -/
theorem any_key_map_set (m : List (String × PyVal)) (k x : String)
    (v : PyVal) :
    (m.map (fun p => if p.1 == k then (k, v) else p)).any
      (fun q => q.1 == x) = m.any (fun q => q.1 == x) := by
  rw [List.any_map]
  have hfun : ((fun q : String × PyVal => q.1 == x) ∘
      (fun p => if p.1 == k then (k, v) else p)) =
      fun q : String × PyVal => q.1 == x := by
    funext p
    by_cases hp : p.1 = k
    · have hb : (p.1 == k) = true := beq_iff_eq.mpr hp
      simp [Function.comp_apply, hb, hp]
    · have hb : (p.1 == k) = false := beq_eq_false_iff_ne.mpr hp
      simp [Function.comp_apply, hb, hp]
  rw [hfun]

/-- The characterization of the insertion-ordered fold: the original
entries keep their slots and take the last value written under their
key, and the keys never seen before are appended as the spec-side
first-insertion merge of the remaining entries. -/
theorem foldl_dictUpdate_spec :
    ∀ (l m : List (String × PyVal)),
    l.foldl (fun acc p => dictUpdate acc p.1 p.2) m =
      m.map (fun q => (q.1, lastValue q.1 q.2 l)) ++
      specMergeEntries (l.filter (fun p => !(m.any (fun q => q.1 == p.1)))) := by
  intro l
  induction l with
  | nil =>
    intro m
    simp [specMergeEntries, lastValue]
  | cons e rest ih =>
    obtain ⟨k, v⟩ := e
    intro m
    rw [List.foldl_cons]
    show List.foldl (fun acc p => dictUpdate acc p.1 p.2)
      (dictUpdate m k v) rest = _
    rw [ih (dictUpdate m k v)]
    by_cases h : m.any (fun p => p.1 == k) = true
    · have hdu : dictUpdate m k v =
          m.map (fun p => if p.1 == k then (k, v) else p) := by
        simp [dictUpdate, h]
      have hfil : ((k, v) :: rest).filter
          (fun p => !(m.any (fun q => q.1 == p.1))) =
          rest.filter (fun p => !(m.any (fun q => q.1 == p.1))) := by
        simp [List.filter_cons, h]
      rw [hdu, hfil]
      congr 1
      · rw [List.map_map]
        apply List.map_congr_left
        intro q _
        by_cases hq : q.1 = k
        · have hb : (q.1 == k) = true := beq_iff_eq.mpr hq
          simp only [Function.comp_apply, hb, if_true]
          rw [hq, lastValue_cons_self]
        · have hb : (q.1 == k) = false := beq_eq_false_iff_ne.mpr hq
          have hb2 : (k == q.1) = false := by rw [str_beq_comm]; exact hb
          simp only [Function.comp_apply, hb, Bool.false_eq_true, if_false]
          rw [lastValue_cons_ne k q.1 v q.2 rest hb2]
      · congr 1
        apply List.filter_congr
        intro p _
        rw [any_key_map_set]
    · have hfalse : m.any (fun p => p.1 == k) = false :=
        Bool.eq_false_iff.mpr h
      have hdu : dictUpdate m k v = m ++ [(k, v)] := by
        simp [dictUpdate, h]
      rw [hdu, List.map_append]
      have hmem : ∀ q ∈ m, (q.1 == k) = false := by
        intro q hq
        have := List.any_eq_false.mp hfalse q hq
        simpa using this
      have hfil : ((k, v) :: rest).filter
          (fun p => !(m.any (fun q => q.1 == p.1))) =
          (k, v) :: rest.filter (fun p => !(m.any (fun q => q.1 == p.1))) := by
        simp [List.filter_cons, hfalse]
      rw [hfil]
      rw [show specMergeEntries ((k, v) ::
          rest.filter (fun p => !(m.any (fun q => q.1 == p.1)))) =
        (k, lastValue k v
            (rest.filter (fun p => !(m.any (fun q => q.1 == p.1))))) ::
          specMergeEntries
            ((rest.filter (fun p => !(m.any (fun q => q.1 == p.1)))).filter
              (fun p => p.1 != k)) from by rw [specMergeEntries]]
      -- (1) original entries: a fresh key changes no existing lastValue
      have hmap : m.map ((fun q : String × PyVal =>
            (q.1, lastValue q.1 q.2 rest))) =
          m.map (fun q => (q.1, lastValue q.1 q.2 ((k, v) :: rest))) := by
        apply List.map_congr_left
        intro q hq
        have hb2 : (k == q.1) = false := by
          rw [str_beq_comm]; exact hmem q hq
        rw [lastValue_cons_ne k q.1 v q.2 rest hb2]
      -- (2) the head value: filtering already-seen keys keeps key-k writes
      have hval : lastValue k v
          (rest.filter (fun p => !(m.any (fun q => q.1 == p.1)))) =
          lastValue k v rest := by
        unfold lastValue
        rw [List.filter_filter]
        congr 1
        apply List.filter_congr
        intro p _
        by_cases hp : p.1 = k
        · have hb : (p.1 == k) = true := beq_iff_eq.mpr hp
          have : m.any (fun q => q.1 == p.1) = false := by
            rw [hp]; exact hfalse
          simp [hb, this]
        · have hb : (p.1 == k) = false := beq_eq_false_iff_ne.mpr hp
          simp [hb]
      -- (3) the tail filters agree
      have htail : rest.filter
          (fun p => !((m ++ [(k, v)]).any (fun q => q.1 == p.1))) =
          (rest.filter (fun p => !(m.any (fun q => q.1 == p.1)))).filter
            (fun p => p.1 != k) := by
        rw [List.filter_filter]
        apply List.filter_congr
        intro p _
        simp only [List.any_append, List.any_cons, List.any_nil,
          Bool.or_false, Bool.not_or]
        rw [str_beq_comm k p.1]
        cases hm : m.any (fun q => q.1 == p.1) <;>
          cases hpk : (p.1 == k) <;> simp [bne, hm, hpk]
      rw [hmap, hval, htail]
      simp

/-- Keys of the spec-side merge: the input keys in first-insertion
order. -/
theorem specMerge_keys (l : List (String × PyVal)) :
    (specMergeEntries l).map (fun p => p.1) =
      firstOccurrences (l.map (fun p => p.1)) := by
  induction l using specMergeEntries.induct with
  | case1 => simp [specMergeEntries, firstOccurrences]
  | case2 k v rest ih =>
    rw [specMergeEntries, List.map_cons, List.map_cons, firstOccurrences, ih]
    congr 1
    rw [List.filter_map]
    rfl

/-- Claim C9: Aggregation output order: `aggregate` returns exactly the
spec-side first-insertion merge of the valid (name, metric) pairs of the
builtin metrics followed by the vendor metrics — so the output lists one
metric per name, names in first-insertion order (builtin names in input
order, then new vendor names in input order), each slot carrying the
last metric inserted under that name. In particular a vendor metric that
overwrites a builtin metric of the same name keeps the original builtin
slot position while supplying the merged entry's content. -/
theorem C9_aggregate_insertion_order (bs vs : List PyVal) :
    aggregate bs vs =
      (specMergeEntries (validEntries (bs ++ vs))).map (fun p => p.2) ∧
    (specMergeEntries (validEntries (bs ++ vs))).map (fun p => p.1) =
      firstOccurrences ((validEntries (bs ++ vs)).map (fun p => p.1)) ∧
    validEntries (bs ++ vs) = validEntries bs ++ validEntries vs := by
  refine ⟨?_, specMerge_keys _, ?_⟩
  · show (vs.foldl aggStep (bs.foldl aggStep [])).map (fun p => p.2) = _
    rw [← List.foldl_append aggStep [] bs vs]
    rw [foldl_aggStep_eq]
    rw [foldl_dictUpdate_spec]
    simp
  · simp [validEntries, List.filterMap_append]

/-- Witness for C9: the characterization applied to the concrete
scenario-D metrics, cross-checked against the directly computed
aggregate (the vendor metric overwrites in place). -/
theorem C9_witness :
    aggregate [demoBuiltinMetric] [demoVendorMetric] =
      (specMergeEntries
        (validEntries ([demoBuiltinMetric] ++ [demoVendorMetric]))).map
        (fun p => p.2) ∧
    aggregate [demoBuiltinMetric] [demoVendorMetric] = [demoVendorMetric] :=
  ⟨(C9_aggregate_insertion_order [demoBuiltinMetric] [demoVendorMetric]).1,
    rfl⟩

/-- Witness for C10: the gap theorem applied to a concrete `which`
environment that resolves every binary. -/
theorem C10_witness :
    check_language_available
      (initLanguageBinaries (fun _ => some "/usr/bin/x")) "sh" = false ∧
    execute (initLanguageBinaries (fun _ => some "/usr/bin/x"))
      (fun _ _ => .completed "1" "" 0) "echo 1" "sh" 5 (some "numeric") =
      none :=
  ⟨(C10_sh_accepted_but_never_runs).2.2.2.1 (fun _ => some "/usr/bin/x"),
    (C10_sh_accepted_but_never_runs).2.2.2.2 (fun _ => some "/usr/bin/x")
      (fun _ _ => .completed "1" "" 0) "echo 1" 5 (some "numeric")⟩

end MonClient
